import Mathlib

/-!
Verification of the trading-journal P&L / statistics core of the
`akshay543210/besttool` repository.

The embedding models JavaScript numbers as exact rationals (`ℚ`) and trade
dates at calendar-day granularity as integers (`ℤ`, days since 1970-01-01,
so day 0 is a Thursday).  `Number.prototype.toFixed(2)` is modelled as
decimal rounding to two places; because IEEE-754 doubles can never be an
exact decimal half-tie at two places (ties would need denominator 200,
which is not a power of two), the tie-breaking direction is unobservable
in the source program, and we use the sign-symmetric half-away-from-zero
convention.

Sources embedded:
  * `calculatePnL`        — src/src/pages/TradeReview.tsx (identical to
                            `calculateTradePnL` in src/unnamed/part_000);
                            the `useTrades` hook consumed by the dashboard
                            exposes the same function per spec §4.1.
  * `filteredTrades`      — src/unnamed/part_002 (TradingDashboard), the
                            date-fns based time-range filter.
  * `filteredTradesP3`    — src/unnamed/part_003, the hand-rolled variant
                            of the same filter.
  * `filteredStats`       — src/unnamed/part_002 lines 535–645.
  * `equityData`          — src/unnamed/part_002 lines 648–671.
  * `getActiveAccount`    — src/src/hooks/useAccounts.ts lines 169–171.
-/

/-- Account record; only the fields the calculator reads are modelled
(`starting_balance` as an exact rational, `is_active` as a flag). -/
structure Account where
  starting_balance : ℚ
  is_active : Bool
  deriving Repr, DecidableEq

/-- Trade record restricted to the fields the P&L / statistics core reads.
`date` is a calendar-day index (days since 1970-01-01); `risk_percentage`,
`rr` and `pnl_dollar` are nullable numbers. -/
structure Trade where
  date : ℤ
  result : String
  risk_percentage : Option ℚ
  rr : Option ℚ
  pnl_dollar : Option ℚ
  deriving Repr, DecidableEq

/-- JavaScript `x || d` for a nullable numeric field: `null`/`undefined`
and `0` are falsy and fall through to the default. -/
def jsOr (o : Option ℚ) (d : ℚ) : ℚ :=
  match o with
  | some v => if v = 0 then d else v
  | none => d

/-- `Number((q).toFixed(2))`: round to two decimal places.  Half-ties are
rounded away from zero; see the file comment for why the tie direction is
unobservable on IEEE-754 inputs. -/
def round2 (q : ℚ) : ℚ :=
  if 0 ≤ q then (⌊q * 100 + 1 / 2⌋ : ℚ) / 100
  else -((⌊-q * 100 + 1 / 2⌋ : ℚ) / 100)

/-- JavaScript `String.prototype.toLowerCase()` on the result strings in
play (character-wise lowercasing). -/
def jsToLowerCase (s : String) : String := ⟨s.data.map Char.toLower⟩

/-- `calculatePnL(trade)` from src/src/pages/TradeReview.tsx lines 91–112
(closing over the active account, here passed explicitly as an `Option`):
null account → 0; else a present `pnl_dollar` is returned verbatim; else
risk-amount math branched on the lower-cased result. -/
def calculatePnL (trade : Trade) (account : Option Account) : ℚ :=
  match account with
  | none => 0
  | some acc =>
    match trade.pnl_dollar with
    | some v => v
    | none =>
      let riskPercentage := jsOr trade.risk_percentage 1
      let riskAmount := acc.starting_balance * (riskPercentage / 100)
      let rrRatio := jsOr trade.rr 1
      if jsToLowerCase trade.result = "win" then round2 (riskAmount * rrRatio)
      else if jsToLowerCase trade.result = "loss" then round2 (-riskAmount)
      else 0

/-- date-fns `startOfWeek(d, weekStartsOn: 0)` on day indices: the Sunday
on or before `d`.  Day 0 (1970-01-01) is a Thursday, so the weekday of day
`d` is `(d + 4) % 7` with `0 = Sunday`. -/
def startOfWeekSun (d : ℤ) : ℤ := d - (d + 4) % 7

/-- date-fns `isSameWeek(d1, d2, weekStartsOn: 0)`. -/
def isSameWeekSun (d1 d2 : ℤ) : Bool := startOfWeekSun d1 == startOfWeekSun d2

/-- Time-filter keywords embedded here.  The source switch also handles
month/year/3-month keywords; those need civil-calendar fields which no
claim exercises, so they are not part of this embedding. -/
inductive RangeKeyword
  | all
  | today
  | yesterday
  | thisWeek
  | lastWeek
  deriving Repr, DecidableEq

/-- `filteredTrades` from src/unnamed/part_002 lines 506–531 (day/week
cases): `today` is `now` truncated to its calendar day, which is the same
day index in this model. -/
def filteredTrades (trades : List Trade) (keyword : RangeKeyword) (today : ℤ) :
    List Trade :=
  trades.filter fun t =>
    match keyword with
    | .today => t.date == today
    | .yesterday => t.date == today - 1
    | .thisWeek => isSameWeekSun t.date today
    | .lastWeek => isSameWeekSun t.date (today - 7)
    | .all => true

/-- `filteredTrades` from src/unnamed/part_003 lines 62–87 (day/week
cases), the hand-rolled variant: `thisWeekStart = today - today.getDay()`
and the week cases are half-open lower bounds. -/
def filteredTradesP3 (trades : List Trade) (keyword : RangeKeyword) (today : ℤ) :
    List Trade :=
  trades.filter fun t =>
    match keyword with
    | .today => decide (today ≤ t.date)
    | .yesterday => decide (today - 1 ≤ t.date ∧ t.date < today)
    | .thisWeek => decide (today - (today + 4) % 7 ≤ t.date)
    | .lastWeek =>
        decide (today - (today + 4) % 7 - 7 ≤ t.date ∧
          t.date < today - (today + 4) % 7)
    | .all => true

/-- Profit factor value: a finite number or the positive-infinity sentinel
(JavaScript `Infinity`); `NaN` is not representable. -/
inductive JNum
  | num (q : ℚ)
  | inf
  deriving Repr, DecidableEq

/-- The summary record returned by the dashboard's `filteredStats` memo
(src/unnamed/part_002 lines 628–644). -/
structure Stats where
  totalTrades : ℕ
  wins : ℕ
  losses : ℕ
  breakevens : ℕ
  winRate : ℚ
  avgWinRR : ℚ
  avgLossRR : ℚ
  profitFactor : JNum
  currentWinStreak : ℕ
  currentLossStreak : ℕ
  topWinRR : ℚ
  topLossRR : ℚ
  totalRR : ℚ
  totalPnL : ℚ
  bestDayProfit : ℚ
  deriving Repr, DecidableEq

/-- The all-zero summary returned in the degenerate case
(src/unnamed/part_002 lines 536–554). -/
def zeroStats : Stats :=
  { totalTrades := 0, wins := 0, losses := 0, breakevens := 0, winRate := 0
    avgWinRR := 0, avgLossRR := 0, profitFactor := .num 0
    currentWinStreak := 0, currentLossStreak := 0, topWinRR := 0
    topLossRR := 0, totalRR := 0, totalPnL := 0, bestDayProfit := 0 }

/-- `wins` bucket (line 562): case-insensitive result match. -/
def winsOf (trades : List Trade) : List Trade :=
  trades.filter fun t => jsToLowerCase t.result == "win"

/-- `losses` bucket (line 563). -/
def lossesOf (trades : List Trade) : List Trade :=
  trades.filter fun t => jsToLowerCase t.result == "loss"

/-- `breakevens` bucket (line 564). -/
def breakevensOf (trades : List Trade) : List Trade :=
  trades.filter fun t => jsToLowerCase t.result == "breakeven"

/-- `totalWinPnL` (line 567): sum of `Math.abs(calculatedPnL)` over wins. -/
def totalWinPnL (trades : List Trade) (account : Option Account) : ℚ :=
  ((winsOf trades).map fun t => |calculatePnL t account|).sum

/-- `totalLossPnL` (line 568): sum of `Math.abs(calculatedPnL)` over losses. -/
def totalLossPnL (trades : List Trade) (account : Option Account) : ℚ :=
  ((lossesOf trades).map fun t => |calculatePnL t account|).sum

/-- `totalPnL` (line 569): signed sum of `calculatedPnL` over all trades. -/
def totalPnLOf (trades : List Trade) (account : Option Account) : ℚ :=
  (trades.map fun t => calculatePnL t account).sum

/-- `winRRs` (lines 572–574): `t.rr || 0` over wins, kept when positive. -/
def winRRs (trades : List Trade) : List ℚ :=
  ((winsOf trades).map fun t => jsOr t.rr 0).filter fun r => decide (0 < r)

/-- `lossRRs` (lines 576–578): the constant 1 per loss, kept when positive. -/
def lossRRs (trades : List Trade) : List ℚ :=
  ((lossesOf trades).map fun _ => (1 : ℚ)).filter fun r => decide (0 < r)

/-- The streak loop of lines 590–607: a forward fold over the given order;
a win bumps the win counter and zeroes the loss counter, a loss does the
opposite, anything else zeroes both. -/
def streakLoop (trades : List Trade) : ℕ × ℕ :=
  trades.foldl
    (fun s t =>
      if jsToLowerCase t.result == "win" then (s.1 + 1, 0)
      else if jsToLowerCase t.result == "loss" then (0, s.2 + 1)
      else (0, 0))
    (0, 0)

/-- The distinct `yyyy-MM-dd` keys of `tradesByDate` (lines 613–621); at
day granularity the key is the day index itself. -/
def dayKeys (trades : List Trade) : List ℤ :=
  (trades.map (·.date)).dedup

/-- One group sum of `tradesByDate`. -/
def daySum (trades : List Trade) (account : Option Account) (d : ℤ) : ℚ :=
  ((trades.filter fun t => t.date == d).map fun t => calculatePnL t account).sum

/-- `bestDayProfit` (lines 623–626): max of the per-day sums, 0 when there
are no groups. -/
def bestDayProfitOf (trades : List Trade) (account : Option Account) : ℚ :=
  match ((dayKeys trades).map (daySum trades account)).max? with
  | some m => m
  | none => 0

/-- `filteredStats` from src/unnamed/part_002 lines 535–645: the summary
computed over the already-filtered trade list and the active account. -/
def filteredStats (trades : List Trade) (account : Option Account) : Stats :=
  match account with
  | none => zeroStats
  | some acc =>
    if trades.isEmpty then zeroStats
    else
      { totalTrades := trades.length
        wins := (winsOf trades).length
        losses := (lossesOf trades).length
        breakevens := (breakevensOf trades).length
        winRate :=
          if 0 < trades.length then
            ((winsOf trades).length : ℚ) / (trades.length : ℚ) * 100
          else 0
        avgWinRR :=
          if 0 < (winRRs trades).length then
            (winRRs trades).sum / ((winRRs trades).length : ℚ)
          else 0
        avgLossRR :=
          if 0 < (lossRRs trades).length then
            (lossRRs trades).sum / ((lossRRs trades).length : ℚ)
          else 0
        profitFactor :=
          if 0 < totalLossPnL trades (some acc) then
            .num (totalWinPnL trades (some acc) / totalLossPnL trades (some acc))
          else if 0 < totalWinPnL trades (some acc) then .inf
          else .num 0
        currentWinStreak := (streakLoop trades).1
        currentLossStreak := (streakLoop trades).2
        topWinRR :=
          match (winRRs trades).max? with
          | some m => m
          | none => 0
        topLossRR := 1
        totalRR := totalPnLOf trades (some acc)
        totalPnL := totalPnLOf trades (some acc)
        bestDayProfit := bestDayProfitOf trades (some acc) }

/-- Date ordering used by the equity-curve sort comparator
(`new Date(a.date).getTime() - new Date(b.date).getTime()`). -/
def dateLE (a b : Trade) : Prop := a.date ≤ b.date

instance : DecidableRel dateLE := fun a b => Int.decLe a.date b.date

instance : IsTotal Trade dateLE := ⟨fun a b => le_total a.date b.date⟩

instance : IsTrans Trade dateLE := ⟨fun _ _ _ h h' => le_trans h h'⟩

/-- The `[...trades].sort((a, b) => dateA - dateB)` step (line 654),
embedded as a stable sort on the date order. -/
def sortTrades (trades : List Trade) : List Trade :=
  trades.insertionSort dateLE

/-- A point of the equity curve. -/
structure EquityPoint where
  date : ℤ
  value : ℚ
  deriving Repr, DecidableEq

/-- The `forEach` accumulation of lines 658–669: one point per trade with
the running total after that trade. -/
def equityScan (account : Option Account) (total : ℚ) :
    List Trade → List EquityPoint
  | [] => []
  | t :: ts =>
    ⟨t.date, total + calculatePnL t account⟩ ::
      equityScan account (total + calculatePnL t account) ts

/-- `equityData` from src/unnamed/part_002 lines 648–671: degenerate case
yields one zero point dated now; otherwise the seed point at the earliest
sorted trade's date followed by the running-total points. -/
def equityData (now : ℤ) (trades : List Trade) (account : Option Account) :
    List EquityPoint :=
  match account, trades with
  | none, _ => [⟨now, 0⟩]
  | some _, [] => [⟨now, 0⟩]
  | some acc, t :: ts =>
    match sortTrades (t :: ts) with
    | [] => [⟨now, 0⟩]
    | s :: ss => ⟨s.date, 0⟩ :: equityScan (some acc) 0 (s :: ss)

/-- `getActiveAccount` from src/src/hooks/useAccounts.ts lines 169–171:
`accounts.find(a => a.is_active) || accounts[0] || null`. -/
def getActiveAccount (accounts : List Account) : Option Account :=
  match accounts.find? (fun a => a.is_active) with
  | some a => some a
  | none => accounts.head?

/-- Spec-side notion for C6: two day indices lie in one calendar week when
some Sunday starts a seven-day span containing both. -/
def inSameCalendarWeekSunday (d1 d2 : ℤ) : Prop :=
  ∃ s : ℤ, (s + 4) % 7 = 0 ∧ s ≤ d1 ∧ d1 < s + 7 ∧ s ≤ d2 ∧ d2 < s + 7

/-- Spec-side notion for C4 as claimed: the length of the contiguous run
of outcome `o` at the START of the given order. -/
def leadingRunLen (o : String) (trades : List Trade) : ℕ :=
  (trades.takeWhile fun t => jsToLowerCase t.result == o).length

/-- The length of the contiguous run of outcome `o` at the END of the
given order (what the streak loop actually measures). -/
def trailingRunLen (o : String) (trades : List Trade) : ℕ :=
  (trades.reverse.takeWhile fun t => jsToLowerCase t.result == o).length

/-- Demo account used for concrete instances. -/
def demoAccount : Account := ⟨10000, true⟩

/-- Demo winning trade (risk 1%, reward 2R). -/
def demoWin : Trade := ⟨19793, "Win", some 1, some 2, none⟩

/-- Demo losing trade (risk 1%). -/
def demoLoss : Trade := ⟨19793, "Loss", some 1, none, none⟩

/-- Demo trade with an unrecognized result and an authoritative dollar value. -/
def demoScratch : Trade := ⟨19793, "Scratch", none, none, some 7⟩

/-- C1: whenever `pnl_dollar` is present and the account is non-null,
`calculatePnL` returns exactly that value, whatever the trade's
`risk_percentage`, `rr` and `result` are; in particular a trade with
`pnl_dollar = -37.5`, `rr = 5`, `result = "Win"` yields `-37.5`. -/
theorem C1_pnl_dollar_authoritative :
    (∀ (d : ℤ) (res : String) (risk rr : Option ℚ) (v : ℚ) (acc : Account),
      calculatePnL ⟨d, res, risk, rr, some v⟩ (some acc) = v) ∧
    calculatePnL ⟨19793, "Win", some 1, some 5, some (-75 / 2)⟩
        (some demoAccount) = -75 / 2 :=
  ⟨fun _ _ _ _ _ _ => rfl, rfl⟩

/-- C5: with a null account `calculatePnL` returns 0 for every trade, even
when `pnl_dollar` is present (the null-account check comes first). -/
theorem C5_null_account_zero :
    (∀ t : Trade, calculatePnL t none = 0) ∧
    calculatePnL ⟨19793, "Win", some 1, some 2, some 500⟩ none = 0 :=
  ⟨fun _ => rfl, rfl⟩

/-- C10: with an empty trade list or a null account the equity builder
returns exactly one point, valued 0 and dated at the given current time. -/
theorem C10_degenerate_equity_curve :
    (∀ (now : ℤ) (trades : List Trade),
      equityData now trades none = [⟨now, 0⟩]) ∧
    (∀ (now : ℤ) (account : Option Account),
      equityData now [] account = [⟨now, 0⟩]) := by
  constructor
  · intro now trades; cases trades <;> rfl
  · intro now account; cases account <;> rfl

/-- C8: when no fetched account is flagged active, `getActiveAccount`
falls back to the first account; it returns null exactly on the empty
list; hence the "active account" need not have `is_active = true`. -/
theorem C8_active_account_fallback :
    (∀ (a0 : Account) (rest : List Account),
      (∀ a ∈ a0 :: rest, a.is_active = false) →
      getActiveAccount (a0 :: rest) = some a0) ∧
    getActiveAccount [] = none ∧
    (∀ (a0 : Account) (rest : List Account),
      (getActiveAccount (a0 :: rest)).isSome = true) ∧
    (∃ (accounts : List Account) (a : Account),
      getActiveAccount accounts = some a ∧ a.is_active = false) := by
  refine ⟨?_, rfl, ?_, ?_⟩
  · intro a0 rest h
    have hf : (a0 :: rest).find? (fun a => a.is_active) = none :=
      List.find?_eq_none.mpr (by intro x hx; simp [h x hx])
    simp [getActiveAccount, hf]
  · intro a0 rest
    unfold getActiveAccount
    cases hf : (a0 :: rest).find? (fun a => a.is_active) <;> simp
  · exact ⟨[⟨100, false⟩], ⟨100, false⟩, rfl, rfl⟩

/-- C8 witness: a concrete single-account list with `is_active = false`,
on which the fallback clause applies. -/
theorem C8_active_account_fallback_witness :
    (∀ a ∈ [(⟨100, false⟩ : Account)], a.is_active = false) ∧
    getActiveAccount [(⟨100, false⟩ : Account)] = some ⟨100, false⟩ :=
  ⟨by decide, C8_active_account_fallback.1 ⟨100, false⟩ [] (by decide)⟩

/-- Rounding to two decimals commutes with negation (half-away-from-zero
is sign-symmetric). -/
theorem round2_neg (q : ℚ) : round2 (-q) = -round2 q := by
  unfold round2
  rcases lt_trichotomy q 0 with h | h | h
  · rw [if_pos (by linarith), if_neg (by linarith)]
    simp
  · subst h; norm_num
  · rw [if_neg (by linarith), if_pos h.le]
    simp

/-- C2: with `pnl_dollar` absent and a non-null account, `calculatePnL`
is the rounded risk math: win → `round2(starting_balance * risk% / 100 * rr)`,
loss → `-round2(starting_balance * risk% / 100)` and 0 otherwise, where the
defaults 1.0 (risk) and 1 (rr) apply to absent/falsy fields. -/
theorem C2_derived_pnl :
    ∀ (d : ℤ) (res : String) (risk rr : Option ℚ) (acc : Account),
      calculatePnL ⟨d, res, risk, rr, none⟩ (some acc) =
        if jsToLowerCase res = "win" then
          round2 (acc.starting_balance * jsOr risk 1 / 100 * jsOr rr 1)
        else if jsToLowerCase res = "loss" then
          -round2 (acc.starting_balance * jsOr risk 1 / 100)
        else 0 := by
  intro d res risk rr acc
  show (if jsToLowerCase res = "win" then
          round2 (acc.starting_balance * (jsOr risk 1 / 100) * jsOr rr 1)
        else if jsToLowerCase res = "loss" then
          round2 (-(acc.starting_balance * (jsOr risk 1 / 100)))
        else 0) = _
  rw [round2_neg, mul_div_assoc]

/-- Sums of absolute P&L are nonnegative. -/
theorem totalLossPnL_nonneg (trades : List Trade) (account : Option Account) :
    0 ≤ totalLossPnL trades account := by
  apply List.sum_nonneg
  intro x hx
  obtain ⟨t, _, rfl⟩ := List.mem_map.mp hx
  exact abs_nonneg _

/-- Sums of absolute P&L are nonnegative (win side). -/
theorem totalWinPnL_nonneg (trades : List Trade) (account : Option Account) :
    0 ≤ totalWinPnL trades account := by
  apply List.sum_nonneg
  intro x hx
  obtain ⟨t, _, rfl⟩ := List.mem_map.mp hx
  exact abs_nonneg _

/-- With a null account every P&L is 0, so the win-side sum vanishes. -/
theorem totalWinPnL_none (trades : List Trade) : totalWinPnL trades none = 0 := by
  apply List.sum_eq_zero
  intro x hx
  obtain ⟨t, _, rfl⟩ := List.mem_map.mp hx
  simp [calculatePnL]

/-- With a null account every P&L is 0, so the loss-side sum vanishes. -/
theorem totalLossPnL_none (trades : List Trade) : totalLossPnL trades none = 0 := by
  apply List.sum_eq_zero
  intro x hx
  obtain ⟨t, _, rfl⟩ := List.mem_map.mp hx
  simp [calculatePnL]

/-- C3: the profit factor is the ratio of absolute win and loss sums when
the loss sum is nonzero, the infinity sentinel when the loss sum is zero
and the win sum positive, and 0 when both are zero; and the sentinel is
distinct from every finite number (the value domain has no NaN). -/
theorem C3_profit_factor :
    (∀ (trades : List Trade) (account : Option Account),
      (filteredStats trades account).profitFactor =
        if totalLossPnL trades account ≠ 0 then
          .num (totalWinPnL trades account / totalLossPnL trades account)
        else if 0 < totalWinPnL trades account then .inf
        else .num 0) ∧
    ∀ q : ℚ, (JNum.inf : JNum) ≠ .num q := by
  constructor
  · intro trades account
    match account with
    | none =>
        simp [filteredStats, zeroStats, totalWinPnL_none, totalLossPnL_none]
    | some acc =>
      match trades with
      | [] =>
        simp [filteredStats, zeroStats, totalWinPnL, totalLossPnL, winsOf,
          lossesOf]
      | t0 :: rest =>
        have hL := totalLossPnL_nonneg (t0 :: rest) (some acc)
        show (if 0 < totalLossPnL (t0 :: rest) (some acc) then
                JNum.num (totalWinPnL (t0 :: rest) (some acc) /
                  totalLossPnL (t0 :: rest) (some acc))
              else if 0 < totalWinPnL (t0 :: rest) (some acc) then JNum.inf
              else JNum.num 0) = _
        rcases eq_or_lt_of_le hL with h | h
        · have h0 : totalLossPnL (t0 :: rest) (some acc) = 0 := h.symm
          rw [h0]
          simp
        · rw [if_pos h, if_pos h.ne']
  · intro q h
    exact JNum.noConfusion h

/-- Three pairwise-exclusive filters keep at most as many elements as the
list has. -/
theorem filter3_length_le {α : Type} (l : List α) (p q r : α → Bool)
    (hpq : ∀ a, p a = true → q a = false)
    (hpr : ∀ a, p a = true → r a = false)
    (hqr : ∀ a, q a = true → r a = false) :
    (l.filter p).length + (l.filter q).length + (l.filter r).length ≤
      l.length := by
  induction l with
  | nil => simp
  | cons x xs ih =>
    simp only [List.filter_cons, List.length_cons]
    cases hp : p x <;> cases hq : q x <;> cases hr : r x <;>
      simp_all <;> omega

/-- C9: the win/loss/breakeven buckets never exceed the total count, and
the inequality can be strict: a trade with an unrecognized result is in
`totalTrades` (and contributes its P&L to `totalPnL`) but in no bucket. -/
theorem C9_buckets_not_partition :
    (∀ (trades : List Trade) (account : Option Account),
      (filteredStats trades account).wins +
        (filteredStats trades account).losses +
        (filteredStats trades account).breakevens ≤
        (filteredStats trades account).totalTrades) ∧
    ((filteredStats [demoScratch] (some demoAccount)).totalTrades = 1 ∧
     (filteredStats [demoScratch] (some demoAccount)).wins = 0 ∧
     (filteredStats [demoScratch] (some demoAccount)).losses = 0 ∧
     (filteredStats [demoScratch] (some demoAccount)).breakevens = 0 ∧
     (filteredStats [demoScratch] (some demoAccount)).totalPnL =
       calculatePnL demoScratch (some demoAccount) ∧
     calculatePnL demoScratch (some demoAccount) = 7) := by
  constructor
  · intro trades account
    match account with
    | none => simp [filteredStats, zeroStats]
    | some acc =>
      match trades with
      | [] => simp [filteredStats, zeroStats]
      | t0 :: rest =>
        show (winsOf (t0 :: rest)).length + (lossesOf (t0 :: rest)).length +
            (breakevensOf (t0 :: rest)).length ≤ (t0 :: rest).length
        apply filter3_length_le
        · intro a ha
          rw [beq_iff_eq] at ha
          simp [ha]
        · intro a ha
          rw [beq_iff_eq] at ha
          simp [ha]
        · intro a ha
          rw [beq_iff_eq] at ha
          simp [ha]
  · refine ⟨by decide, by decide, by decide, by decide, ?_, by decide⟩
    show totalPnLOf [demoScratch] (some demoAccount) =
      calculatePnL demoScratch (some demoAccount)
    simp [totalPnLOf]

/-- Appending one trade extends or resets the trailing run depending on
whether its outcome matches. -/
theorem trailingRunLen_concat (o : String) (ts : List Trade) (t : Trade) :
    trailingRunLen o (ts ++ [t]) =
      if jsToLowerCase t.result == o then trailingRunLen o ts + 1 else 0 := by
  unfold trailingRunLen
  rw [List.reverse_append]
  by_cases h : jsToLowerCase t.result == o
  · simp [h]
  · simp [h]

/-- The streak loop computes the trailing run of wins and of losses of the
given order. -/
theorem streakLoop_eq (ts : List Trade) :
    streakLoop ts = (trailingRunLen "win" ts, trailingRunLen "loss" ts) := by
  induction ts using List.reverseRecOn with
  | nil => rfl
  | append_singleton ts t ih =>
    unfold streakLoop at ih ⊢
    rw [List.foldl_append, ih, trailingRunLen_concat, trailingRunLen_concat]
    simp only [List.foldl_cons, List.foldl_nil]
    by_cases hw : jsToLowerCase t.result == "win"
    · have hl : (jsToLowerCase t.result == "loss") = false := by
        rw [beq_iff_eq] at hw
        simp [hw]
      simp [hw, hl]
    · by_cases hl : jsToLowerCase t.result == "loss"
      · simp [hw, hl]
      · simp [hw, hl]

/-- At most one of the two trailing runs is nonempty. -/
theorem trailingRunLen_disjoint (ts : List Trade) :
    trailingRunLen "win" ts = 0 ∨ trailingRunLen "loss" ts = 0 := by
  induction ts using List.reverseRecOn with
  | nil => exact Or.inl rfl
  | append_singleton ts t ih =>
    rw [trailingRunLen_concat, trailingRunLen_concat]
    by_cases hw : jsToLowerCase t.result == "win"
    · have hl : (jsToLowerCase t.result == "loss") = false := by
        rw [beq_iff_eq] at hw
        simp [hw]
      right
      simp [hl]
    · left
      simp [hw]

/-- C4 counterexample: on the order [Win, Loss], the first contiguous run
of wins from the start has length 1, but the scan reports a win streak of
0 (and a loss streak of 1): the loop measures the run at the END of the
given order, not the first run from the start. -/
theorem C4_counterexample :
    ¬ ((filteredStats [demoWin, demoLoss] (some demoAccount)).currentWinStreak =
        leadingRunLen "win" [demoWin, demoLoss] ∧
       (filteredStats [demoWin, demoLoss] (some demoAccount)).currentLossStreak =
        leadingRunLen "loss" [demoWin, demoLoss]) := by
  intro h
  have := h.1
  revert this
  decide

/-- C4 amended: the scan's final counters equal the length of the LAST
contiguous run of wins (respectively losses) at the end of the given
order, and at least one of the two counters is 0. -/
theorem C4_amended_trailing_streak :
    ∀ (t0 : Trade) (rest : List Trade) (acc : Account),
      (filteredStats (t0 :: rest) (some acc)).currentWinStreak =
        trailingRunLen "win" (t0 :: rest) ∧
      (filteredStats (t0 :: rest) (some acc)).currentLossStreak =
        trailingRunLen "loss" (t0 :: rest) ∧
      ((filteredStats (t0 :: rest) (some acc)).currentWinStreak = 0 ∨
       (filteredStats (t0 :: rest) (some acc)).currentLossStreak = 0) := by
  intro t0 rest acc
  have hs := streakLoop_eq (t0 :: rest)
  refine ⟨?_, ?_, ?_⟩
  · show (streakLoop (t0 :: rest)).1 = _
    rw [hs]
  · show (streakLoop (t0 :: rest)).2 = _
    rw [hs]
  · rcases trailingRunLen_disjoint (t0 :: rest) with h | h
    · left
      show (streakLoop (t0 :: rest)).1 = 0
      rw [hs]
      exact h
    · right
      show (streakLoop (t0 :: rest)).2 = 0
      rw [hs]
      exact h

/-- The embedded date-fns `isSameWeek` test agrees with calendar-week
containment: both days lie in one Sunday-started seven-day span. -/
theorem isSameWeekSun_iff (d1 d2 : ℤ) :
    isSameWeekSun d1 d2 = true ↔ inSameCalendarWeekSunday d1 d2 := by
  unfold isSameWeekSun startOfWeekSun inSameCalendarWeekSunday
  rw [beq_iff_eq]
  constructor
  · intro h
    refine ⟨d1 - (d1 + 4) % 7, ?_, ?_, ?_, ?_, ?_⟩ <;> omega
  · rintro ⟨s, h1, h2, h3, h4, h5⟩
    omega

/-- C6 counterexample: with now = 2024-03-15 (day 19802 is 2024-03-20,
the Wednesday of the NEXT week), the part_003 variant of the this-week
filter includes the trade although it is not in the same calendar week,
because that variant only checks `tradeDate >= thisWeekStart`. -/
theorem C6_counterexample :
    (⟨19802, "Win", none, none, none⟩ : Trade) ∈
      filteredTradesP3 [⟨19802, "Win", none, none, none⟩] .thisWeek 19797 ∧
    ¬ inSameCalendarWeekSunday 19802 19797 := by
  constructor
  · decide
  · rintro ⟨s, h1, h2, h3, h4, h5⟩
    omega

/-- C6 amended: the part_002 dashboard filter includes a trade under
`this-week` exactly when its date is in the same Sunday-started calendar
week as now (so the spec's 2024-03-11 / 2024-03-09 example holds), while
the part_003 variant instead includes every trade dated on or after the
start of the current week, open-ended upward. -/
theorem C6_amended_this_week_filter :
    (∀ (trades : List Trade) (t : Trade) (now : ℤ),
      t ∈ filteredTrades trades .thisWeek now ↔
        t ∈ trades ∧ inSameCalendarWeekSunday t.date now) ∧
    (∀ (trades : List Trade) (t : Trade) (now : ℤ),
      t ∈ filteredTradesP3 trades .thisWeek now ↔
        t ∈ trades ∧ startOfWeekSun now ≤ t.date) ∧
    (⟨19793, "Win", none, none, none⟩ : Trade) ∈
      filteredTrades [⟨19793, "Win", none, none, none⟩] .thisWeek 19797 ∧
    (⟨19791, "Win", none, none, none⟩ : Trade) ∉
      filteredTrades [⟨19791, "Win", none, none, none⟩] .thisWeek 19797 ∧
    (⟨19793, "Win", none, none, none⟩ : Trade) ∈
      filteredTradesP3 [⟨19793, "Win", none, none, none⟩] .thisWeek 19797 ∧
    (⟨19791, "Win", none, none, none⟩ : Trade) ∉
      filteredTradesP3 [⟨19791, "Win", none, none, none⟩] .thisWeek 19797 := by
  refine ⟨?_, ?_, by decide, by decide, by decide, by decide⟩
  · intro trades t now
    rw [filteredTrades, List.mem_filter, isSameWeekSun_iff]
  · intro trades t now
    rw [filteredTradesP3, List.mem_filter]
    unfold startOfWeekSun
    rw [decide_eq_true_iff]

/-- The scan emits one point per trade. -/
theorem equityScan_length (a : Option Account) :
    ∀ (ts : List Trade) (total : ℚ), (equityScan a total ts).length = ts.length := by
  intro ts
  induction ts with
  | nil => intro total; rfl
  | cons t ts ih =>
    intro total
    simp [equityScan, ih]

/-- The k-th scan point carries the k-th trade's date and the running sum
of the first k+1 P&L values, shifted by the accumulator. -/
theorem equityScan_get? (a : Option Account) :
    ∀ (ts : List Trade) (total : ℚ) (k : ℕ) (tk : Trade),
      ts.get? k = some tk →
      (equityScan a total ts).get? k =
        some ⟨tk.date,
          total + ((ts.take (k + 1)).map fun t => calculatePnL t a).sum⟩ := by
  intro ts
  induction ts with
  | nil => intro total k tk h; simp at h
  | cons t ts ih =>
    intro total k tk h
    cases k with
    | zero =>
      rw [List.get?_cons_zero] at h
      cases h
      simp [equityScan]
    | succ k =>
      rw [List.get?_cons_succ] at h
      have := ih (total + calculatePnL t a) k tk h
      show (equityScan a (total + calculatePnL t a) ts).get? k = _
      rw [this]
      simp [add_assoc]

/-- C7: for a non-empty trade list and a non-null account, the equity
builder sorts the trades ascending by date and returns the earliest
sorted trade's date with value 0 followed by one point per sorted trade
whose value is the running sum of `calculatePnL` over the sorted prefix. -/
theorem C7_equity_curve_structure :
    ∀ (t0 : Trade) (rest : List Trade) (acc : Account) (now : ℤ),
      (sortTrades (t0 :: rest)).Perm (t0 :: rest) ∧
      List.Sorted dateLE (sortTrades (t0 :: rest)) ∧
      (equityData now (t0 :: rest) (some acc)).length = (t0 :: rest).length + 1 ∧
      (∃ s0 srest, sortTrades (t0 :: rest) = s0 :: srest ∧
        (equityData now (t0 :: rest) (some acc)).head? = some ⟨s0.date, 0⟩ ∧
        ∀ t ∈ t0 :: rest, s0.date ≤ t.date) ∧
      (∀ (k : ℕ) (tk : Trade), (sortTrades (t0 :: rest)).get? k = some tk →
        (equityData now (t0 :: rest) (some acc)).get? (k + 1) =
          some ⟨tk.date,
            (((sortTrades (t0 :: rest)).take (k + 1)).map
              fun t => calculatePnL t (some acc)).sum⟩) := by
  intro t0 rest acc now
  have hperm : (sortTrades (t0 :: rest)).Perm (t0 :: rest) :=
    List.perm_insertionSort dateLE (t0 :: rest)
  have hsorted : List.Sorted dateLE (sortTrades (t0 :: rest)) :=
    List.sorted_insertionSort dateLE (t0 :: rest)
  obtain ⟨s0, srest, hS⟩ : ∃ s0 srest, sortTrades (t0 :: rest) = s0 :: srest := by
    cases hS : sortTrades (t0 :: rest) with
    | nil =>
      have := hperm.length_eq
      rw [hS] at this
      simp at this
    | cons s0 srest => exact ⟨s0, srest, rfl⟩
  have hED : equityData now (t0 :: rest) (some acc) =
      ⟨s0.date, 0⟩ :: equityScan (some acc) 0 (s0 :: srest) := by
    show (match sortTrades (t0 :: rest) with
      | [] => ([⟨now, 0⟩] : List EquityPoint)
      | s :: ss =>
          (⟨s.date, 0⟩ : EquityPoint) :: equityScan (some acc) 0 (s :: ss)) = _
    rw [hS]
  refine ⟨hperm, hsorted, ?_, ⟨s0, srest, hS, ?_, ?_⟩, ?_⟩
  · rw [hED]
    simp only [List.length_cons, equityScan_length]
    have := hperm.length_eq
    rw [hS] at this
    simp at this
    omega
  · rw [hED]
    rfl
  · intro t ht
    have ht' : t ∈ s0 :: srest := by
      rw [← hS]
      exact hperm.mem_iff.mpr ht
    rcases List.mem_cons.mp ht' with h | h
    · rw [h]
    · rw [hS] at hsorted
      exact (List.sorted_cons.mp hsorted).1 t h
  · intro k tk hk
    rw [hED, List.get?_cons_succ, hS] at *
    rw [hS] at hk
    exact equityScan_get? (some acc) (s0 :: srest) 0 k tk hk |>.trans
      (by rw [zero_add])

/-- C7 witness: on a concrete two-trade list the sorted head is the first
trade and the second curve point carries the one-trade prefix sum. -/
theorem C7_equity_curve_structure_witness :
    (sortTrades [demoLoss, demoWin]).get? 0 = some demoLoss ∧
    (equityData 19999 [demoLoss, demoWin] (some demoAccount)).get? 1 =
      some ⟨demoLoss.date,
        (((sortTrades [demoLoss, demoWin]).take 1).map
          fun t => calculatePnL t (some demoAccount)).sum⟩ :=
  ⟨by decide,
   (C7_equity_curve_structure demoLoss [demoWin] demoAccount 19999).2.2.2.2 0
     demoLoss (by decide)⟩
